import Mathlib

/-!
Verification development for the fast-schema validation engine.

The definitions below are a shallow embedding of the Rust sources
(`src/error.rs`, `src/schema.rs`, `src/utils.rs`, `src/validator.rs`).
JSON numbers are modelled exactly as serde_json stores them: either as a
64-bit integer or as a floating value; floating values and all `f64`
arithmetic are modelled over `ℚ` (the claims under study only exercise
exactly representable values).  Regex matching and string-format checks
are performed by an external regex engine in the source; they are
modelled as an oracle parameter threaded through the engine.
-/

namespace FastSchema

/-- JSON numbers as stored by serde_json: either an integer representation
(`as_i64` succeeds) or a floating value (modelled by its rational value,
`as_i64` fails and `as_f64` succeeds). -/
inductive JNumber
  | int (i : Int)
  | float (q : ℚ)
deriving DecidableEq, Repr

/-- JSON values (`serde_json::Value`).  Objects are modelled as association
lists (serde maps have no duplicate keys). -/
inductive Json
  | null
  | bool (b : Bool)
  | num (n : JNumber)
  | str (s : String)
  | arr (items : List Json)
  | obj (fields : List (String × Json))
deriving Repr

/-- Numeric view `Number::as_f64`. -/
def JNumber.as_f64 : JNumber → ℚ
  | .int i => (i : ℚ)
  | .float q => q

/-- Integer view `Number::as_i64`: succeeds only on integer-stored numbers. -/
def JNumber.as_i64 : JNumber → Option Int
  | .int i => some i
  | .float _ => none

/-- Value-level `Value::as_f64`. -/
def Json.as_f64 : Json → Option ℚ
  | .num n => some n.as_f64
  | _ => none

mutual

/-- Compact JSON serialization (`serde_json::to_string`), used by the
uniqueness checker for values that are not strings, numbers or booleans.
String escaping is not modelled. -/
def Json.serialize : Json → String
  | .null => "null"
  | .bool true => "true"
  | .bool false => "false"
  | .num (.int i) => toString i
  | .num (.float q) => toString q
  | .str s => "\"" ++ s ++ "\""
  | .arr l => "[" ++ serializeList l ++ "]"
  | .obj l => "\x7b" ++ serializeFields l ++ "\x7d"

/-- Comma-separated serialization of array elements. -/
def serializeList : List Json → String
  | [] => ""
  | [x] => x.serialize
  | x :: y :: rest => x.serialize ++ "," ++ serializeList (y :: rest)

/-- Comma-separated serialization of object fields. -/
def serializeFields : List (String × Json) → String
  | [] => ""
  | [(k, v)] => "\"" ++ k ++ "\":" ++ v.serialize
  | (k, v) :: f :: rest => "\"" ++ k ++ "\":" ++ v.serialize ++ "," ++ serializeFields (f :: rest)

end

/-- Runtime type name of a JSON value (`json_type_name` in `utils.rs`,
also inlined in `ValidationError::type_mismatch`). -/
def json_type_name : Json → String
  | .null => "null"
  | .bool _ => "boolean"
  | .num _ => "number"
  | .str _ => "string"
  | .arr _ => "array"
  | .obj _ => "object"

/-- Error codes (`ErrorCode` in `error.rs`). -/
inductive ErrorCode
  | invalidType
  | stringTooShort
  | stringTooLong
  | stringPatternMismatch
  | stringFormatInvalid
  | numberTooSmall
  | numberTooLarge
  | numberNotInteger
  | numberNotMultipleOf
  | arrayTooShort
  | arrayTooLong
  | arrayNotUnique
  | arrayItemInvalid
  | objectMissingProperty
  | objectAdditionalProperty
  | objectPropertyInvalid
  | oneOfNoMatch
  | oneOfMultipleMatches
  | invalidHtmlElement
  | invalidHtmlAttribute
  | missingRequiredAttribute
  | deprecatedAttribute
  | invalidAttributeValue
  | invalidComponentType
  | missingRequiredProp
  | invalidPropType
  | childrenNotAllowed
  | invalidStructure
  | accessibilityViolation
  | semanticWarning
  | invalidFormat
  | invalidValue
  | unknownKey
  | requiredMissing
  | deprecatedFeature
  | allOfFailure
  | anyOfNoMatch
  | schemaInvalid
  | schemaCompilationFailed
  | validationFailed
  | internalError
deriving DecidableEq, Repr

/-- Individual validation error (`ValidationError` in `error.rs`).  The
snapshot fields are fed `serde_json::Value`s by the constructors. -/
structure ValidationError where
  path : String
  message : String
  code : ErrorCode
  expected : Option Json
  received : Option Json
deriving Repr

/-- Performance statistics (`PerformanceStats` in `error.rs`); `f64` fields
are modelled over `ℚ`. -/
structure PerformanceStats where
  validation_time_ms : ℚ
  items_validated : Nat
  throughput : ℚ
  memory_used_bytes : Option Nat
deriving DecidableEq, Repr

/-- Validation result (`ValidationResult` in `error.rs`). -/
structure ValidationResult where
  success : Bool
  data : Option Json
  errors : List ValidationError
  performance : Option PerformanceStats
deriving Repr

/-- ASCII single-quote character, used inside several error messages. -/
def squote : String := String.singleton (Char.ofNat 39)

namespace ValidationError

/-- `ValidationError::new`. -/
def new (path message : String) (code : ErrorCode) : ValidationError :=
  ⟨path, message, code, none, none⟩

/-- `ValidationError::with_values`. -/
def with_values (path message : String) (code : ErrorCode) (expected actual : Json) :
    ValidationError :=
  ⟨path, message, code, some expected, some actual⟩

/-- `ValidationError::type_mismatch`. -/
def type_mismatch (path : String) (expected : String) (actual : Json) : ValidationError :=
  with_values path ("Expected " ++ expected ++ ", got " ++ json_type_name actual)
    .invalidType (.str expected) (.str (json_type_name actual))

/-- `ValidationError::missing_property`. -/
def missing_property (path : String) (property : String) : ValidationError :=
  new (path ++ "." ++ property)
    ("Required property " ++ squote ++ property ++ squote ++ " is missing")
    .objectMissingProperty

/-- Message part of `ValidationError::string_length`. -/
def string_length_message (actual_length : Nat) (min max : Option Nat) : String :=
  match min, max with
  | some mn, some mx =>
      "String length " ++ toString actual_length ++ " is not between " ++ toString mn ++
        " and " ++ toString mx
  | some mn, none =>
      "String length " ++ toString actual_length ++ " is less than minimum " ++ toString mn
  | none, some mx =>
      "String length " ++ toString actual_length ++ " is greater than maximum " ++ toString mx
  | none, none => "String length validation failed"

/-- `ValidationError::string_length`.  The expected/actual snapshots are the
JSON objects built in the source. -/
def string_length (path : String) (actual_length : Nat) (min max : Option Nat) :
    ValidationError :=
  let code := match min with
    | some mn => if actual_length < mn then ErrorCode.stringTooShort else ErrorCode.stringTooLong
    | none => ErrorCode.stringTooLong
  with_values path (string_length_message actual_length min max) code
    (.obj [("min", match min with | some m => .num (.int m) | none => .null),
           ("max", match max with | some m => .num (.int m) | none => .null)])
    (.num (.int actual_length))

/-- Message part of `ValidationError::number_range`. -/
def number_range_message (actual : ℚ) (min max : Option ℚ) : String :=
  match min, max with
  | some mn, some mx =>
      "Number " ++ toString actual ++ " is not between " ++ toString mn ++ " and " ++ toString mx
  | some mn, none => "Number " ++ toString actual ++ " is less than minimum " ++ toString mn
  | none, some mx => "Number " ++ toString actual ++ " is greater than maximum " ++ toString mx
  | none, none => "Number range validation failed"

/-- `ValidationError::number_range`. -/
def number_range (path : String) (actual : ℚ) (min max : Option ℚ) : ValidationError :=
  let code := match min with
    | some mn => if actual < mn then ErrorCode.numberTooSmall else ErrorCode.numberTooLarge
    | none => ErrorCode.numberTooLarge
  with_values path (number_range_message actual min max) code
    (.obj [("min", match min with | some m => .num (.float m) | none => .null),
           ("max", match max with | some m => .num (.float m) | none => .null)])
    (.num (.float actual))

end ValidationError

namespace ValidationResult

/-- `ValidationResult::success` (named `mkSuccess` here because the structure
already has a field called `success`). -/
def mkSuccess (data : Json) : ValidationResult :=
  ⟨true, some data, [], none⟩

/-- `ValidationResult::success_with_stats`. -/
def success_with_stats (data : Json) (stats : PerformanceStats) : ValidationResult :=
  ⟨true, some data, [], some stats⟩

/-- `ValidationResult::failure`. -/
def failure (errors : List ValidationError) : ValidationResult :=
  ⟨false, none, errors, none⟩

/-- `ValidationResult::failure_with_stats`. -/
def failure_with_stats (errors : List ValidationError) (stats : PerformanceStats) :
    ValidationResult :=
  ⟨false, none, errors, some stats⟩

/-- Accumulator state of the loop inside `ValidationResult::merge`. -/
structure MergeAcc where
  merged_errors : List ValidationError
  all_successful : Bool
  merged_data : Option Json
  total_time : ℚ
  total_items : Nat

/-- One iteration of the loop inside `ValidationResult::merge`. -/
def mergeStep (acc : MergeAcc) (r : ValidationResult) : MergeAcc :=
  let acc :=
    if !r.success then
      { acc with all_successful := false, merged_errors := acc.merged_errors ++ r.errors }
    else if acc.merged_data.isNone then
      { acc with merged_data := r.data }
    else acc
  match r.performance with
  | some perf =>
      { acc with total_time := acc.total_time + perf.validation_time_ms,
                 total_items := acc.total_items + perf.items_validated }
  | none => acc

/-- `ValidationResult::merge`. -/
def merge (results : List ValidationResult) : ValidationResult :=
  let acc := results.foldl mergeStep ⟨[], true, none, 0, 0⟩
  let performance :=
    if acc.total_items > 0 then
      some (PerformanceStats.mk acc.total_time acc.total_items
        ((acc.total_items : ℚ) / (acc.total_time / 1000)) none)
    else none
  if acc.all_successful then
    ⟨true, acc.merged_data, [], performance⟩
  else
    ⟨false, none, acc.merged_errors, performance⟩

end ValidationResult

/-- Partition key used by the uniqueness checker: one constructor per backing
set of `UniqueChecker` in `utils.rs`. -/
inductive UKey
  | kstr (s : String)
  | kint (i : Int)
  | kfloat (q : ℚ)
  | kbool (b : Bool)
  | kother (serialized : String)
deriving DecidableEq, Repr

/-- Array uniqueness checker (`UniqueChecker` in `utils.rs`); each `HashSet`
is modelled as the list of elements inserted so far. -/
structure UniqueChecker where
  strings : List String
  numbers : List Int
  floats : List ℚ
  bools : List Bool
  others : List String
deriving Repr

namespace UniqueChecker

/-- `UniqueChecker::new`. -/
def new : UniqueChecker := ⟨[], [], [], [], []⟩

/-- `UniqueChecker::insert`: returns whether the item was newly inserted,
together with the updated checker.  Numbers stored as 64-bit integers go to
the integer set; other numbers go to the float set keyed by their `f64` bit
pattern (modelled by the rational value); all other non-string non-boolean
values are keyed by their JSON serialization. -/
def insert (c : UniqueChecker) (value : Json) : Bool × UniqueChecker :=
  match value with
  | .str s => (s ∉ c.strings, { c with strings := s :: c.strings })
  | .num n =>
      match n.as_i64 with
      | some i => (i ∉ c.numbers, { c with numbers := i :: c.numbers })
      | none => (n.as_f64 ∉ c.floats, { c with floats := n.as_f64 :: c.floats })
  | .bool b => (b ∉ c.bools, { c with bools := b :: c.bools })
  | v =>
      let serialized := v.serialize
      (serialized ∉ c.others, { c with others := serialized :: c.others })

/-- Multiset of keys held by the checker, used to reason about `insert`. -/
def keys (c : UniqueChecker) : List UKey :=
  c.strings.map .kstr ++ c.numbers.map .kint ++ c.floats.map .kfloat ++
    c.bools.map .kbool ++ c.others.map .kother

end UniqueChecker

/-- Partition key of a JSON value, mirroring the dispatch of
`UniqueChecker::insert`. -/
def jkey : Json → UKey
  | .str s => .kstr s
  | .num (.int i) => .kint i
  | .num (.float q) => .kfloat q
  | .bool b => .kbool b
  | v => .kother v.serialize

/-- Scan of an array by `validate_array`: inserts items one at a time and
reports `true` as soon as an insertion finds a duplicate (the scan stops
there). -/
def uniqueScan (c : UniqueChecker) : List Json → Bool
  | [] => false
  | x :: rest => if (c.insert x).1 then uniqueScan (c.insert x).2 rest else true

/-- Dotted path built by `PathBuilder::build` from the current segments. -/
def buildPath (segments : List String) : String :=
  match segments with
  | [] => ""
  | _ => String.intercalate "." segments

/-- Segment pushed by `PathBuilder::push_index`. -/
def indexSegment (i : Nat) : String := "[" ++ toString i ++ "]"

/-- Validation options (`ValidationOptions` in `utils.rs`). -/
structure ValidationOptions where
  early_exit : Bool
  collect_all_errors : Bool
  enable_performance_tracking : Bool
  max_errors : Option Nat
  parallel_threshold : Nat
deriving DecidableEq, Repr

/-- `ValidationOptions::default`. -/
def defaultOptions : ValidationOptions :=
  ⟨false, true, false, none, 1000⟩

/-- `ValidationContext::should_continue`. -/
def shouldContinue (opts : ValidationOptions) (error_count : Nat) : Bool :=
  match opts.max_errors with
  | some m => error_count < m
  | none => !opts.early_exit || error_count == 0

/-- String format tags (`StringFormat` in `schema.rs`). -/
inductive StringFormat
  | email
  | uri
  | url
  | uuid
  | dateTime
  | date
  | time
  | dateTimeIso
  | duration
  | ipv4
  | ipv6
  | hostname
  | ipv4Cidr
  | ipv6Cidr
  | macAddress
  | port
  | cssColor
  | cssLength
  | cssSelector
  | htmlId
  | className
  | base64
  | base64Url
  | jwt
  | nanoid
  | cuid
  | objectId
  | mimeType
  | fileExtension
  | latitude
  | longitude
  | country
  | language
  | timezone
  | phoneNumber
  | postalCode
  | sha256
  | md5
  | jsonPointer
  | relativeJsonPointer
  | regex
deriving DecidableEq, Repr

/-- Human-readable format name (`fmt_name` in `validator.rs`; the formats it
does not cover never reach it, so they are given their serde rename here). -/
def fmt_name : StringFormat → String
  | .email => "email"
  | .uri => "uri"
  | .url => "url"
  | .uuid => "uuid"
  | .dateTime => "date-time"
  | .date => "date"
  | .time => "time"
  | .ipv4 => "ipv4"
  | .ipv6 => "ipv6"
  | .hostname => "hostname"
  | .jsonPointer => "json-pointer"
  | .relativeJsonPointer => "relative-json-pointer"
  | .regex => "regex"
  | _ => "unknown"

/-- Schema variants evaluated by the validation engine (`SchemaType` in
`schema.rs`).  The extension variants (union, refinement, HTML, CSS, GraphQL)
are declared in the source but have no arm in `validate_value`; they are
outside the engine and are not modelled. -/
inductive SchemaType
  | string (min_length max_length : Option Nat) (pattern : Option String)
      (format : Option StringFormat)
  | number (min max : Option ℚ) (integer : Bool) (multiple_of : Option ℚ)
  | boolean
  | array (items : SchemaType) (min_items max_items : Option Nat) (unique_items : Bool)
  | object (properties : List (String × SchemaType)) (required : Option (List String))
      (additional_properties : Bool)
  | null
  | any
  | oneOf (schemas : List SchemaType)
  | allOf (schemas : List SchemaType)
  | anyOf (schemas : List SchemaType)
deriving Repr

/-- `SchemaType::is_simple`. -/
def SchemaType.is_simple : SchemaType → Bool
  | .string .. | .number .. | .boolean | .null | .any => true
  | _ => false

mutual

/-- `SchemaType::calculate_depth`. -/
def SchemaType.calculate_depth : SchemaType → Nat
  | .array items _ _ _ => 1 + items.calculate_depth
  | .object props _ _ => 1 + depth_props props
  | .oneOf schemas | .allOf schemas | .anyOf schemas => 1 + depth_list schemas
  | _ => 0

/-- Maximum `calculate_depth` over property schemas (`.max().unwrap_or(0)`). -/
def depth_props : List (String × SchemaType) → Nat
  | [] => 0
  | (_, s) :: rest => Nat.max s.calculate_depth (depth_props rest)

/-- Maximum `calculate_depth` over branch schemas (`.max().unwrap_or(0)`). -/
def depth_list : List SchemaType → Nat
  | [] => 0
  | s :: rest => Nat.max s.calculate_depth (depth_list rest)

end

mutual

/-- `SchemaType::estimate_complexity`. -/
def SchemaType.estimate_complexity : SchemaType → Nat
  | .string _ _ pattern format =>
      1 + (if pattern.isSome then 10 else 0) + (if format.isSome then 5 else 0)
  | .number .. => 2
  | .boolean | .null => 1
  | .array items _ _ _ => 5 + items.estimate_complexity
  | .object props _ _ => 10 + complexity_props props
  | .oneOf schemas => 20 + complexity_list schemas
  | .allOf schemas => 15 + complexity_list schemas
  | .anyOf schemas => 10 + complexity_list schemas
  | .any => 1

/-- Sum of `estimate_complexity` over property schemas. -/
def complexity_props : List (String × SchemaType) → Nat
  | [] => 0
  | (_, s) :: rest => s.estimate_complexity + complexity_props rest

/-- Sum of `estimate_complexity` over branch schemas. -/
def complexity_list : List SchemaType → Nat
  | [] => 0
  | s :: rest => s.estimate_complexity + complexity_list rest

end

mutual

/-- `SchemaType::has_patterns` (the private recursive method). -/
def SchemaType.has_patterns : SchemaType → Bool
  | .string _ _ pattern _ => pattern.isSome
  | .array items _ _ _ => items.has_patterns
  | .object props _ _ => patterns_props props
  | .oneOf schemas | .allOf schemas | .anyOf schemas => patterns_list schemas
  | _ => false

/-- Whether any property schema satisfies `has_patterns` (`.values().any(..)`). -/
def patterns_props : List (String × SchemaType) → Bool
  | [] => false
  | (_, s) :: rest => s.has_patterns || patterns_props rest

/-- Whether any branch schema satisfies `has_patterns` (`.iter().any(..)`). -/
def patterns_list : List SchemaType → Bool
  | [] => false
  | s :: rest => s.has_patterns || patterns_list rest

end

/-- Compiled schema (`CompiledSchema` in `schema.rs`). -/
structure CompiledSchema where
  schema : SchemaType
  required_fields : List String
  has_patterns : Bool
  max_depth : Nat
  estimated_complexity : Nat
deriving Repr

/-- `SchemaType::compile`: the `has_patterns` field is computed only when the
root schema is an object, by scanning that object's property schemas. -/
def SchemaType.compile (s : SchemaType) : CompiledSchema :=
  let required_fields : List String :=
    match s with
    | .object _ (some req) _ => req
    | _ => []
  let has_patterns : Bool :=
    match s with
    | .object props _ _ => patterns_props props
    | _ => false
  ⟨s, required_fields, has_patterns, s.calculate_depth, s.estimate_complexity⟩

namespace SchemaOptimizer

mutual

/-- `SchemaOptimizer::reorder_object_properties`: simple-typed properties are
moved in front of complex ones (the two Rust `HashMap`s are modelled as the
declaration-ordered sublists), recursing into complex properties and array
items. -/
def reorder_object_properties : SchemaType → SchemaType
  | .object props req ap =>
      .object (props.filter (fun kv => kv.2.is_simple) ++ reorder_complex props) req ap
  | .array items mi ma u => .array (reorder_object_properties items) mi ma u
  | s => s

/-- Complex-property part of the reordering: keeps only non-simple properties,
reordering each recursively. -/
def reorder_complex : List (String × SchemaType) → List (String × SchemaType)
  | [] => []
  | (k, s) :: rest =>
      if s.is_simple then reorder_complex rest
      else (k, reorder_object_properties s) :: reorder_complex rest

end

/-- `SchemaOptimizer::optimize_for_batch`. -/
def optimize_for_batch (schema : SchemaType) (batch_size : Nat) : SchemaType :=
  if batch_size > 1000 then reorder_object_properties schema else schema

/-- `SchemaOptimizer::is_parallelizable_schema`; the `f64` ratio test is exact
over `ℚ`. -/
def is_parallelizable_schema : SchemaType → Bool
  | .object props _ _ =>
      let simple_count := (props.filter (fun kv => kv.2.is_simple)).length
      let total_count := props.length
      decide (total_count > 0 ∧ (simple_count : ℚ) / (total_count : ℚ) > 7 / 10)
  | .string _ _ pattern _ => pattern.isNone
  | s => s.is_simple

/-- `SchemaOptimizer::can_parallelize`. -/
def can_parallelize (schema : SchemaType) (data_size : Nat) : Bool :=
  decide (data_size > 100) && is_parallelizable_schema schema

end SchemaOptimizer

/-- Oracle for the text facilities the engine delegates to the `regex` crate:
`regexMatch pat s` is `none` when the pattern fails to compile (matching
`get_or_compile_regex` returning `None`; the cache is pure memoization and
observationally transparent), otherwise `some` of the match result;
`formatOk` is `validate_string_format` from `utils.rs`. -/
structure TextOracles where
  regexMatch : String → String → Option Bool
  formatOk : StringFormat → String → Bool

/-- `is_integer` from `utils.rs`: the fractional part is exactly zero. -/
def is_integer (q : ℚ) : Bool := q.den == 1

/-- `f64::EPSILON`, which is exactly `2 ^ (-52)`. -/
def f64_epsilon : ℚ := 1 / 2 ^ 52

/-- Truncation toward zero, as used by the `%` operator on `f64`. -/
def truncQ (q : ℚ) : Int := if 0 ≤ q then ⌊q⌋ else ⌈q⌉

/-- Rust `%` on `f64` values (remainder with the sign of the dividend). -/
def fmod (n m : ℚ) : ℚ := n - (truncQ (n / m) : ℚ) * m

/-- `Validator::validate_string`. -/
def validate_string (o : TextOracles) (p : List String) (min_length max_length : Option Nat)
    (pattern : Option String) (format : Option StringFormat) (v : Json) :
    List ValidationError :=
  match v with
  | .str s =>
      let len := s.length
      let minErrs := match min_length with
        | some mn =>
            if len < mn then [ValidationError.string_length (buildPath p) len (some mn) max_length]
            else []
        | none => []
      let maxErrs := match max_length with
        | some mx =>
            if len > mx then [ValidationError.string_length (buildPath p) len min_length (some mx)]
            else []
        | none => []
      let patErrs := match pattern with
        | some pat =>
            match o.regexMatch pat s with
            | some true => []
            | some false =>
                [ValidationError.new (buildPath p) ("String does not match pattern: " ++ pat)
                  .stringPatternMismatch]
            | none =>
                [ValidationError.new (buildPath p) ("Invalid regex pattern: " ++ pat)
                  .stringPatternMismatch]
        | none => []
      let fmtErrs := match format with
        | some f =>
            if o.formatOk f s then []
            else
              [ValidationError.new (buildPath p)
                ("String format " ++ squote ++ fmt_name f ++ squote ++ " validation failed")
                .stringFormatInvalid]
        | none => []
      minErrs ++ maxErrs ++ patErrs ++ fmtErrs
  | _ => [ValidationError.type_mismatch (buildPath p) "string" v]

/-- `Validator::validate_number`. -/
def validate_number (p : List String) (min max : Option ℚ) (integer : Bool)
    (multiple_of : Option ℚ) (v : Json) : List ValidationError :=
  match v.as_f64 with
  | some n =>
      let intErrs :=
        if integer && !is_integer n then
          [ValidationError.new (buildPath p) "Number must be an integer" .numberNotInteger]
        else []
      let minErrs := match min with
        | some mn =>
            if n < mn then [ValidationError.number_range (buildPath p) n (some mn) max] else []
        | none => []
      let maxErrs := match max with
        | some mx =>
            if n > mx then [ValidationError.number_range (buildPath p) n min (some mx)] else []
        | none => []
      let multErrs := match multiple_of with
        | some m =>
            if m ≠ 0 ∧ |fmod n m| > f64_epsilon then
              [ValidationError.new (buildPath p)
                ("Number must be a multiple of " ++ toString m) .numberNotMultipleOf]
            else []
        | none => []
      intErrs ++ minErrs ++ maxErrs ++ multErrs
  | none => [ValidationError.type_mismatch (buildPath p) "number" v]

/-- `Validator::validate_boolean`. -/
def validate_boolean (p : List String) (v : Json) : List ValidationError :=
  match v with
  | .bool _ => []
  | _ => [ValidationError.type_mismatch (buildPath p) "boolean" v]

/-- `Validator::validate_null`. -/
def validate_null (p : List String) (v : Json) : List ValidationError :=
  match v with
  | .null => []
  | _ => [ValidationError.type_mismatch (buildPath p) "null" v]

/-- Length checks of `Validator::validate_array`. -/
def array_length_errors (p : List String) (len : Nat) (min_items max_items : Option Nat) :
    List ValidationError :=
  (match min_items with
   | some mn =>
       if len < mn then
         [ValidationError.new (buildPath p)
           ("Array must have at least " ++ toString mn ++ " items") .arrayTooShort]
       else []
   | none => []) ++
  (match max_items with
   | some mx =>
       if len > mx then
         [ValidationError.new (buildPath p)
           ("Array must have at most " ++ toString mx ++ " items") .arrayTooLong]
       else []
   | none => [])

/-- Uniqueness check of `Validator::validate_array`: a single error is pushed
when the scan first hits a duplicate, and the scan breaks there. -/
def unique_errors (p : List String) (l : List Json) : List ValidationError :=
  if uniqueScan UniqueChecker.new l then
    [ValidationError.new (buildPath p) "Array items must be unique" .arrayNotUnique]
  else []

/-- Field lookup in an object (`Map::get`). -/
def lookupField : List (String × Json) → String → Option Json
  | [], _ => none
  | (k, v) :: rest, name => if k = name then some v else lookupField rest name

/-- Required-property check of `Validator::validate_object`. -/
def required_errors (p : List String) (required : Option (List String))
    (fields : List (String × Json)) : List ValidationError :=
  match required with
  | some req =>
      (req.filter (fun name => !(fields.any (fun kv => kv.1 == name)))).map
        (fun name => ValidationError.missing_property (buildPath p) name)
  | none => []

/-- Key membership in the declared properties (`HashMap::contains_key`). -/
def props_contains (props : List (String × SchemaType)) (key : String) : Bool :=
  props.any (fun kv => kv.1 == key)

/-- Additional-property check of `Validator::validate_object`. -/
def additional_errors (p : List String) (props : List (String × SchemaType))
    (fields : List (String × Json)) : List ValidationError :=
  (fields.filter (fun kv => !props_contains props kv.1)).map (fun kv =>
    ValidationError.new (buildPath p ++ "." ++ kv.1)
      ("Additional property " ++ squote ++ kv.1 ++ squote ++ " is not allowed")
      .objectAdditionalProperty)

/-- Path rewriting applied to combinator branch errors:
`format!("{}[<tag>:{}].{}", base, idx, e.path)`. -/
def rewritePath (tag : String) (base : String) (idx : Nat) (e : ValidationError) :
    ValidationError :=
  { e with path := base ++ "[" ++ tag ++ ":" ++ toString idx ++ "]." ++ e.path }

mutual

/-- `Validator::validate_value`: dispatch on the schema variant.  Combinator
branches run against a fresh context sharing only the path (`temp_context`),
which the shallow embedding renders by passing the same `p`.  In the `oneOf`
and `anyOf` arms the source also accumulates `[oneOf:i]`/`[anyOf:i]`-annotated
branch errors into an `all_errors` vector that is dead (never part of the
returned value); the embedding does not materialize it. -/
def validate_value (o : TextOracles) (opts : ValidationOptions) (p : List String) :
    SchemaType → Json → List ValidationError
  | .string mn mx pat fmt, v => validate_string o p mn mx pat fmt v
  | .number mn mx intg mOf, v => validate_number p mn mx intg mOf v
  | .boolean, v => validate_boolean p v
  | .array items mi ma uniq, v =>
      match v with
      | .arr l =>
          let base := array_length_errors p l.length mi ma ++
            (if uniq then unique_errors p l else [])
          base ++ validate_items o opts p items l 0 base.length
      | _ => [ValidationError.type_mismatch (buildPath p) "array" v]
  | .object props req ap, v =>
      match v with
      | .obj fields =>
          let reqErrs := required_errors p req fields
          reqErrs ++ validate_props o opts p fields props reqErrs.length ++
            (if ap then [] else additional_errors p props fields)
      | _ => [ValidationError.type_mismatch (buildPath p) "object" v]
  | .null, v => validate_null p v
  | .any, _ => []
  | .oneOf schemas, v =>
      let valid_count := count_valid o opts p schemas v
      if valid_count == 0 then
        [ValidationError.new (buildPath p) "Value does not match any oneOf schemas" .oneOfNoMatch]
      else if valid_count == 1 then []
      else
        [ValidationError.new (buildPath p)
          ("Value matches " ++ toString valid_count ++ " oneOf schemas, expected exactly 1")
          .oneOfMultipleMatches]
  | .allOf schemas, v => validate_all_of o opts p schemas v 0 0
  | .anyOf schemas, v => validate_any_of o opts p schemas v
termination_by s _ => (sizeOf s, 0)

/-- Branch-success counting loop of `Validator::validate_one_of`. -/
def count_valid (o : TextOracles) (opts : ValidationOptions) (p : List String) :
    List SchemaType → Json → Nat
  | [], _ => 0
  | s :: rest, v =>
      (if (validate_value o opts p s v).isEmpty then 1 else 0) + count_valid o opts p rest v
termination_by l _ => (sizeOf l, 0)

/-- Item loop of `Validator::validate_array`: `idx` is the current index and
`acc` the running error count checked by `should_continue` (a `break` is an
empty tail). -/
def validate_items (o : TextOracles) (opts : ValidationOptions) (p : List String)
    (items : SchemaType) : List Json → Nat → Nat → List ValidationError
  | [], _, _ => []
  | x :: rest, idx, acc =>
      if shouldContinue opts acc then
        let es := validate_value o opts (p ++ [indexSegment idx]) items x
        es ++ validate_items o opts p items rest (idx + 1) (acc + es.length)
      else []
termination_by l _ _ => (sizeOf items, l.length + 1)

/-- Declared-property loop of `Validator::validate_object`: absent properties
are skipped without consulting `should_continue`, present ones are validated
under a path scope for their name. -/
def validate_props (o : TextOracles) (opts : ValidationOptions) (p : List String)
    (fields : List (String × Json)) : List (String × SchemaType) → Nat → List ValidationError
  | [], _ => []
  | (name, ps) :: rest, acc =>
      match lookupField fields name with
      | none => validate_props o opts p fields rest acc
      | some pv =>
          if shouldContinue opts acc then
            let es := validate_value o opts (p ++ [name]) ps pv
            es ++ validate_props o opts p fields rest (acc + es.length)
          else []
termination_by l _ => (sizeOf l, 0)

/-- `Validator::validate_all_of`: every branch error is kept, rewritten with
an `[allOf:i]` path segment. -/
def validate_all_of (o : TextOracles) (opts : ValidationOptions) (p : List String) :
    List SchemaType → Json → Nat → Nat → List ValidationError
  | [], _, _, _ => []
  | s :: rest, v, idx, acc =>
      if shouldContinue opts acc then
        let es := (validate_value o opts p s v).map (rewritePath "allOf" (buildPath p) idx)
        es ++ validate_all_of o opts p rest v (idx + 1) (acc + es.length)
      else []
termination_by l _ _ _ => (sizeOf l, 0)

/-- `Validator::validate_any_of`: returns empty at the first succeeding
branch; when no branch succeeds the accumulated branch errors are dead and a
single `AnyOfNoMatch` error is returned. -/
def validate_any_of (o : TextOracles) (opts : ValidationOptions) (p : List String) :
    List SchemaType → Json → List ValidationError
  | [], _ =>
      [ValidationError.new (buildPath p) "Value does not match any anyOf schemas" .anyOfNoMatch]
  | s :: rest, v =>
      if (validate_value o opts p s v).isEmpty then [] else validate_any_of o opts p rest v
termination_by l _ => (sizeOf l, 0)

end

/-- Options built at the top of `Validator::validate_many`. -/
def manyOptions : ValidationOptions :=
  { defaultOptions with enable_performance_tracking := true, parallel_threshold := 100 }

/-- `PerformanceTracker::finish` for a tracker that has counted `items` items
and whose wall-clock reading (an external quantity) is `elapsed`
milliseconds. -/
def finishStats (elapsed : ℚ) (items : Nat) : PerformanceStats :=
  ⟨elapsed, items, if items == 0 then 0 else (items : ℚ) / (elapsed / 1000), none⟩

/-- `Validator::validate`: a fresh context with default options (performance
tracking disabled, so the stats branches of the source are dead). -/
def validate (o : TextOracles) (schema : SchemaType) (v : Json) : ValidationResult :=
  let errors := validate_value o defaultOptions [] schema.compile.schema v
  if errors.isEmpty then ValidationResult.mkSuccess v
  else ValidationResult.failure errors

/-- Per-item body, written once here because `validate_sequential` and
`validate_chunk` contain it verbatim: a fresh context with the item index
pushed on the path, one item counted, and the wall clock read through the
`clock` oracle. -/
def batch_item (o : TextOracles) (clock : Nat → ℚ) (schema : SchemaType) (i : Nat) (v : Json) :
    ValidationResult :=
  let errors := validate_value o manyOptions [indexSegment i] schema v
  if errors.isEmpty then ValidationResult.success_with_stats v (finishStats (clock i) 1)
  else ValidationResult.failure_with_stats errors (finishStats (clock i) 1)

/-- `Validator::validate_sequential`. -/
def validate_sequential (o : TextOracles) (clock : Nat → ℚ) (schema : SchemaType)
    (values : List Json) : List ValidationResult :=
  values.enum.map (fun iv => batch_item o clock schema iv.1 iv.2)

/-- Rust `slice::chunks n`: consecutive groups of `n` elements in order, the
last possibly shorter; an empty slice yields no chunks. -/
def chunksOf (n : Nat) : List Json → List (List Json)
  | [] => []
  | x :: xs => (x :: xs.take (n - 1)) :: chunksOf n (xs.drop (n - 1))
termination_by l => l.length
decreasing_by simp [List.length_drop]; omega

/-- `Validator::validate_chunk`: same per-item body as the sequential loop,
but the enumeration (and hence the index pushed on each path) restarts at 0
inside every chunk. -/
def validate_chunk (o : TextOracles) (clock : Nat → ℚ) (schema : SchemaType)
    (chunk : List Json) : List ValidationResult :=
  chunk.enum.map (fun iv => batch_item o clock schema iv.1 iv.2)

/-- `Validator::validate_parallel`: chunked processing with
`CHUNK_SIZE = 1000`, chunk results concatenated in order. -/
def validate_parallel (o : TextOracles) (clock : Nat → ℚ) (schema : SchemaType)
    (values : List Json) : List ValidationResult :=
  ((chunksOf 1000 values).map (validate_chunk o clock schema)).flatten

/-- `Validator::validate_many`. -/
def validate_many (o : TextOracles) (clock : Nat → ℚ) (schema : SchemaType)
    (values : List Json) : List ValidationResult :=
  let optimized := SchemaOptimizer.optimize_for_batch schema.compile.schema values.length
  if SchemaOptimizer.can_parallelize optimized values.length then
    validate_parallel o clock optimized values
  else
    validate_sequential o clock optimized values

/-! ## Characterization of `ValidationResult::merge` -/

namespace ValidationResult

/-- Payload selected by the merge loop: the first present payload among the
successful inputs. -/
def firstSuccessData (results : List ValidationResult) : Option Json :=
  (results.filterMap (fun r => if r.success then r.data else none)).head?

theorem foldl_mergeStep_all_successful (rs : List ValidationResult) (acc : MergeAcc) :
    (rs.foldl mergeStep acc).all_successful = (acc.all_successful && rs.all (fun r => r.success)) := by
  induction rs generalizing acc with
  | nil => simp
  | cons r rest ih =>
      simp only [List.foldl_cons, List.all_cons, ih]
      cases hr : r.success <;>
        simp [mergeStep, hr] <;> cases hp : r.performance <;>
          simp [hr, hp] <;> split <;> simp

theorem foldl_mergeStep_merged_errors (rs : List ValidationResult) (acc : MergeAcc) :
    (rs.foldl mergeStep acc).merged_errors =
      acc.merged_errors ++ ((rs.filter (fun r => !r.success)).map (fun r => r.errors)).flatten := by
  induction rs generalizing acc with
  | nil => simp
  | cons r rest ih =>
      simp only [List.foldl_cons, ih]
      cases hr : r.success <;>
        simp [mergeStep, hr] <;> cases hp : r.performance <;>
          simp [hr, hp] <;> split <;> simp

theorem foldl_mergeStep_merged_data (rs : List ValidationResult) (acc : MergeAcc) :
    (rs.foldl mergeStep acc).merged_data = acc.merged_data.or (firstSuccessData rs) := by
  induction rs generalizing acc with
  | nil => simp [firstSuccessData]
  | cons r rest ih =>
      simp only [List.foldl_cons, ih]
      cases hr : r.success with
      | false =>
          simp [mergeStep, hr, firstSuccessData]
          cases hp : r.performance <;> simp
      | true =>
          cases hacc : acc.merged_data with
          | none =>
              simp [mergeStep, hr, hacc, firstSuccessData]
              cases hp : r.performance <;> cases hrd : r.data <;>
                simp [Option.or, List.filterMap_cons, hr, hrd]
          | some d =>
              simp [mergeStep, hr, hacc, firstSuccessData]
              cases hp : r.performance <;> simp [Option.or, hacc]

/-- The merged flag is the conjunction of the input flags. -/
theorem merge_success (rs : List ValidationResult) :
    (merge rs).success = rs.all (fun r => r.success) := by
  by_cases hall : rs.all (fun r => r.success) <;>
    simp [merge, foldl_mergeStep_all_successful, hall]

/-- The merged error list: empty on overall success, otherwise the ordered
concatenation of the failing inputs' error lists. -/
theorem merge_errors (rs : List ValidationResult) :
    (merge rs).errors =
      if rs.all (fun r => r.success) then []
      else ((rs.filter (fun r => !r.success)).map (fun r => r.errors)).flatten := by
  by_cases hall : rs.all (fun r => r.success) <;>
    simp [merge, foldl_mergeStep_all_successful, foldl_mergeStep_merged_errors, hall]

/-- The merged payload: the first present payload among the successful inputs
on overall success, discarded otherwise. -/
theorem merge_data (rs : List ValidationResult) :
    (merge rs).data =
      if rs.all (fun r => r.success) then firstSuccessData rs else none := by
  by_cases hall : rs.all (fun r => r.success) <;>
    simp [merge, foldl_mergeStep_all_successful, foldl_mergeStep_merged_data, hall, Option.or]

end ValidationResult

/-! ## Characterization of the uniqueness checker -/

theorem UniqueChecker.insert_fst (c : UniqueChecker) (v : Json) :
    ((c.insert v).1 = true) ↔ jkey v ∉ c.keys := by
  cases v with
  | str s => simp [insert, keys, jkey]
  | num n =>
      cases n with
      | int i => simp [insert, keys, jkey, JNumber.as_i64]
      | float q => simp [insert, keys, jkey, JNumber.as_i64, JNumber.as_f64]
  | bool b => simp [insert, keys, jkey]
  | null => simp [insert, keys, jkey]
  | arr l => simp [insert, keys, jkey]
  | obj l => simp [insert, keys, jkey]

theorem UniqueChecker.mem_insert_keys (c : UniqueChecker) (v : Json) (k : UKey) :
    k ∈ (c.insert v).2.keys ↔ k = jkey v ∨ k ∈ c.keys := by
  cases v with
  | str s =>
      simp only [insert, keys, jkey, List.map_cons, List.mem_append, List.mem_cons]
      tauto
  | num n =>
      cases n with
      | int i =>
          simp only [insert, keys, jkey, JNumber.as_i64, List.map_cons, List.mem_append,
            List.mem_cons]
          tauto
      | float q =>
          simp only [insert, keys, jkey, JNumber.as_i64, JNumber.as_f64, List.map_cons,
            List.mem_append, List.mem_cons]
          tauto
  | bool b =>
      simp only [insert, keys, jkey, List.map_cons, List.mem_append, List.mem_cons]
      tauto
  | null =>
      simp only [insert, keys, jkey, List.map_cons, List.mem_append, List.mem_cons]
      tauto
  | arr l =>
      simp only [insert, keys, jkey, List.map_cons, List.mem_append, List.mem_cons]
      tauto
  | obj l =>
      simp only [insert, keys, jkey, List.map_cons, List.mem_append, List.mem_cons]
      tauto


theorem uniqueScan_eq_true_iff (l : List Json) (c : UniqueChecker) :
    uniqueScan c l = true ↔ (∃ x ∈ l, jkey x ∈ c.keys) ∨ ¬ (l.map jkey).Nodup := by
  induction l generalizing c with
  | nil => simp [uniqueScan]
  | cons x rest ih =>
      by_cases hf : jkey x ∈ c.keys
      · have h1 : (c.insert x).1 = false := by
          cases hb : (c.insert x).1
          · rfl
          · exact absurd ((c.insert_fst x).mp hb) (by simp [hf])
        simp only [uniqueScan, h1, Bool.false_eq_true, if_false, true_iff]
        exact Or.inl ⟨x, List.mem_cons_self x rest, hf⟩
      · have h1 : (c.insert x).1 = true := (c.insert_fst x).mpr hf
        simp only [uniqueScan, h1, if_true]
        rw [ih]
        constructor
        · rintro (⟨y, hy, hk⟩ | hnd)
          · rw [UniqueChecker.mem_insert_keys] at hk
            rcases hk with hk | hk
            · refine Or.inr ?_
              simp only [List.map_cons, List.nodup_cons]
              rintro ⟨hnotin, -⟩
              exact hnotin (List.mem_map.mpr ⟨y, hy, hk⟩)
            · exact Or.inl ⟨y, List.mem_cons_of_mem _ hy, hk⟩
          · refine Or.inr ?_
            simp only [List.map_cons, List.nodup_cons]
            rintro ⟨-, hnd2⟩
            exact hnd hnd2
        · rintro (⟨y, hy, hk⟩ | hnd)
          · rcases List.mem_cons.mp hy with rfl | hy2
            · exact absurd hk hf
            · exact Or.inl ⟨y, hy2, (UniqueChecker.mem_insert_keys c x (jkey y)).mpr (Or.inr hk)⟩
          · by_cases hd : (rest.map jkey).Nodup
            · have hx : jkey x ∈ rest.map jkey := by
                by_contra hxn
                exact hnd (by simpa [List.nodup_cons] using And.intro hxn hd)
              rcases List.mem_map.mp hx with ⟨y, hy, hk⟩
              exact Or.inl ⟨y, hy,
                (UniqueChecker.mem_insert_keys c x (jkey y)).mpr (Or.inl hk)⟩
            · exact Or.inr hd

theorem uniqueScan_new_eq (l : List Json) :
    uniqueScan UniqueChecker.new l = !decide ((l.map jkey).Nodup) := by
  have h := uniqueScan_eq_true_iff l UniqueChecker.new
  simp only [UniqueChecker.new, UniqueChecker.keys, List.map_nil, List.append_nil,
    List.not_mem_nil, and_false, exists_false, false_or] at h
  cases hd : decide ((l.map jkey).Nodup) with
  | true =>
      simp only [Bool.not_true]
      cases hs : uniqueScan UniqueChecker.new l
      · rfl
      · exact absurd (h.mp hs) (by simpa using of_decide_eq_true hd)
  | false =>
      simp only [Bool.not_false]
      exact h.mpr (of_decide_eq_false hd)

theorem unique_errors_eq (p : List String) (l : List Json) :
    unique_errors p l =
      if (l.map jkey).Nodup then []
      else [ValidationError.new (buildPath p) "Array items must be unique" .arrayNotUnique] := by
  rw [unique_errors, uniqueScan_new_eq]
  by_cases hd : (l.map jkey).Nodup <;> simp [hd]


/-! ## Combinator loop characterizations -/

theorem count_valid_eq_countP (o : TextOracles) (opts : ValidationOptions) (p : List String)
    (l : List SchemaType) (v : Json) :
    count_valid o opts p l v = l.countP (fun s => (validate_value o opts p s v).isEmpty) := by
  induction l with
  | nil => simp [count_valid]
  | cons s rest ih =>
      rw [count_valid, ih, List.countP_cons]
      cases h : (validate_value o opts p s v).isEmpty <;> simp [h, Nat.add_comm]

theorem validate_any_of_eq (o : TextOracles) (opts : ValidationOptions) (p : List String)
    (l : List SchemaType) (v : Json) :
    validate_any_of o opts p l v =
      if l.any (fun s => (validate_value o opts p s v).isEmpty) then []
      else
        [ValidationError.new (buildPath p) "Value does not match any anyOf schemas"
          .anyOfNoMatch] := by
  induction l with
  | nil => simp [validate_any_of]
  | cons s rest ih =>
      rw [validate_any_of]
      cases h : (validate_value o opts p s v).isEmpty
      · simp only [h, Bool.false_eq_true, if_false, List.any_cons, Bool.false_or]
        exact ih
      · simp [h]


/-! ## Path-independence of everything but the path

The batch loops validate each item under a context whose path starts with the
item index, while `validate` starts from the empty path; the lemmas below
show that the produced errors differ at most in their `path` field. -/

/-- Projection of an error that forgets its path. -/
def stripE (e : ValidationError) : ErrorCode × String × Option Json × Option Json :=
  (e.code, e.message, e.expected, e.received)

theorem strip_length {l1 l2 : List ValidationError}
    (h : l1.map stripE = l2.map stripE) : l1.length = l2.length := by
  simpa using congrArg List.length h

theorem strip_isEmpty {l1 l2 : List ValidationError}
    (h : l1.map stripE = l2.map stripE) : l1.isEmpty = l2.isEmpty := by
  cases l1 <;> cases l2 <;> simp_all

theorem shouldContinue_congr {o1 o2 : ValidationOptions}
    (hx : o1.early_exit = o2.early_exit) (hm : o1.max_errors = o2.max_errors) :
    shouldContinue o1 = shouldContinue o2 := by
  funext n
  rw [shouldContinue, shouldContinue, hx, hm]

theorem strip_singleton_if (c : Prop) [Decidable c] {e1 e2 : ValidationError}
    (h : stripE e1 = stripE e2) :
    (if c then [e1] else []).map stripE = (if c then [e2] else []).map stripE := by
  split <;> simp [h]

theorem strip_validate_string (o : TextOracles) (p1 p2 : List String)
    (mn mx : Option Nat) (pat : Option String) (fmt : Option StringFormat) (v : Json) :
    (validate_string o p1 mn mx pat fmt v).map stripE =
      (validate_string o p2 mn mx pat fmt v).map stripE := by
  cases v with
  | str s =>
      rcases pat with _ | pat
      · rcases mn with _ | m <;> rcases mx with _ | M <;> rcases fmt with _ | f <;>
          simp only [validate_string] <;> (try split_ifs) <;>
            simp [stripE, ValidationError.string_length, ValidationError.with_values,
              ValidationError.new]
      · rcases hrm : o.regexMatch pat s with _ | b <;> (try cases b) <;>
          rcases mn with _ | m <;> rcases mx with _ | M <;> rcases fmt with _ | f <;>
            simp only [validate_string, hrm] <;> (try split_ifs) <;>
              simp [stripE, ValidationError.string_length, ValidationError.with_values,
                ValidationError.new]
  | null => rfl
  | bool b => rfl
  | num n => rfl
  | arr l => rfl
  | obj l => rfl

theorem strip_validate_number (p1 p2 : List String) (mn mx : Option ℚ) (intg : Bool)
    (mOf : Option ℚ) (v : Json) :
    (validate_number p1 mn mx intg mOf v).map stripE =
      (validate_number p2 mn mx intg mOf v).map stripE := by
  rcases hv : v.as_f64 with _ | n
  · simp [validate_number, hv, stripE, ValidationError.type_mismatch,
      ValidationError.with_values]
  · rcases mn with _ | m <;> rcases mx with _ | M <;> rcases mOf with _ | mf <;>
      simp only [validate_number, hv] <;> (try split_ifs) <;>
        simp [stripE, ValidationError.number_range, ValidationError.with_values,
          ValidationError.new]

theorem strip_array_length_errors (p1 p2 : List String) (len : Nat)
    (mi ma : Option Nat) :
    (array_length_errors p1 len mi ma).map stripE =
      (array_length_errors p2 len mi ma).map stripE := by
  rcases mi with _ | m <;> rcases ma with _ | M <;>
    simp only [array_length_errors] <;> (try split_ifs) <;>
      simp [stripE, ValidationError.new]

theorem strip_unique_errors (p1 p2 : List String) (l : List Json) :
    (unique_errors p1 l).map stripE = (unique_errors p2 l).map stripE := by
  rw [unique_errors, unique_errors]
  split <;> rfl

theorem strip_required_errors (p1 p2 : List String) (req : Option (List String))
    (fields : List (String × Json)) :
    (required_errors p1 req fields).map stripE =
      (required_errors p2 req fields).map stripE := by
  rcases req with _ | names
  · rfl
  · simp only [required_errors, List.map_map]
    rfl

theorem strip_additional_errors (p1 p2 : List String)
    (props : List (String × SchemaType)) (fields : List (String × Json)) :
    (additional_errors p1 props fields).map stripE =
      (additional_errors p2 props fields).map stripE := by
  simp only [additional_errors, List.map_map]
  rfl

theorem strip_rewritePath (tag base : String) (idx : Nat) (es : List ValidationError) :
    (es.map (rewritePath tag base idx)).map stripE = es.map stripE := by
  simp only [List.map_map]
  rfl

theorem strip_append {l1 l2 r1 r2 : List ValidationError}
    (h1 : l1.map stripE = l2.map stripE) (h2 : r1.map stripE = r2.map stripE) :
    ((l1 ++ r1).map stripE) = ((l2 ++ r2).map stripE) := by
  rw [List.map_append, List.map_append, h1, h2]

theorem validate_value_strip_congr (o : TextOracles) (o1 o2 : ValidationOptions)
    (hx : o1.early_exit = o2.early_exit) (hm : o1.max_errors = o2.max_errors)
    (p1 p2 : List String) (s : SchemaType) (v : Json) :
    (validate_value o o1 p1 s v).map stripE = (validate_value o o2 p2 s v).map stripE := by
  have hsc : shouldContinue o1 = shouldContinue o2 := shouldContinue_congr hx hm
  cases s with
  | string mn mx pat fmt =>
      simpa only [validate_value] using strip_validate_string o p1 p2 mn mx pat fmt v
  | number mn mx intg mOf =>
      simpa only [validate_value] using strip_validate_number p1 p2 mn mx intg mOf v
  | boolean =>
      cases v <;> simp [validate_value, validate_boolean, stripE,
        ValidationError.type_mismatch, ValidationError.with_values]
  | null =>
      cases v <;> simp [validate_value, validate_null, stripE,
        ValidationError.type_mismatch, ValidationError.with_values]
  | any => simp [validate_value]
  | array items mi ma uniq =>
      cases v with
      | arr l =>
          have hbase :
              (array_length_errors p1 l.length mi ma ++
                  (if uniq then unique_errors p1 l else [])).map stripE =
                (array_length_errors p2 l.length mi ma ++
                  (if uniq then unique_errors p2 l else [])).map stripE := by
            rw [List.map_append, List.map_append, strip_array_length_errors p1 p2]
            congr 1
            split
            · exact strip_unique_errors p1 p2 l
            · rfl
          have hlen := strip_length hbase
          have hitems : ∀ (l' : List Json) (idx acc : Nat),
              (validate_items o o1 p1 items l' idx acc).map stripE =
                (validate_items o o2 p2 items l' idx acc).map stripE := by
            intro l'
            induction l' with
            | nil => intro idx acc; simp [validate_items]
            | cons x rest ih =>
                intro idx acc
                have hlt : sizeOf items < sizeOf (SchemaType.array items mi ma uniq) := by
                  simp
                  omega
                have hrec := validate_value_strip_congr o o1 o2 hx hm
                  (p1 ++ [indexSegment idx]) (p2 ++ [indexSegment idx]) items x
                have hreclen := strip_length hrec
                rw [validate_items, validate_items, ← hsc]
                cases hc : shouldContinue o1 acc
                · simp
                · simp only [if_true]
                  rw [List.map_append, List.map_append, hrec, hreclen, ih]
          simp only [validate_value]
          exact strip_append hbase ((hitems l 0 _).trans (by rw [hlen]))
      | null => simp [validate_value, stripE, ValidationError.type_mismatch,
          ValidationError.with_values]
      | bool b => simp [validate_value, stripE, ValidationError.type_mismatch,
          ValidationError.with_values]
      | num n => simp [validate_value, stripE, ValidationError.type_mismatch,
          ValidationError.with_values]
      | str st => simp [validate_value, stripE, ValidationError.type_mismatch,
          ValidationError.with_values]
      | obj fs => simp [validate_value, stripE, ValidationError.type_mismatch,
          ValidationError.with_values]
  | object props req ap =>
      cases v with
      | obj fields =>
          have hreq := strip_required_errors p1 p2 req fields
          have hreqlen := strip_length hreq
          have hprops : ∀ (l' : List (String × SchemaType)),
              (∀ e ∈ l', e ∈ props) → ∀ acc : Nat,
              (validate_props o o1 p1 fields l' acc).map stripE =
                (validate_props o o2 p2 fields l' acc).map stripE := by
            intro l'
            induction l' with
            | nil => intro _ acc; simp [validate_props]
            | cons kv rest ih =>
                obtain ⟨name, ps⟩ := kv
                intro hsub acc
                have hmem : (name, ps) ∈ props := hsub _ (List.mem_cons_self _ _)
                have hlt : sizeOf ps < sizeOf (SchemaType.object props req ap) := by
                  have h1 := List.sizeOf_lt_of_mem hmem
                  simp at h1 ⊢
                  omega
                have ihr := ih (fun e he => hsub e (List.mem_cons_of_mem _ he))
                rw [validate_props, validate_props]
                cases hlf : lookupField fields name
                · exact ihr acc
                · rename_i pv
                  have hrec := validate_value_strip_congr o o1 o2 hx hm
                    (p1 ++ [name]) (p2 ++ [name]) ps pv
                  have hreclen := strip_length hrec
                  rw [← hsc]
                  cases hc : shouldContinue o1 acc
                  · simp
                  · simp only [if_true]
                    exact strip_append hrec ((ihr _).trans (by rw [hreclen]))
          have hadd := strip_additional_errors p1 p2 props fields
          simp only [validate_value]
          refine strip_append (strip_append hreq ?_) ?_
          · exact (hprops props (fun _ h => h) _).trans (by rw [hreqlen])
          · split
            · rfl
            · exact hadd
      | null => simp [validate_value, stripE, ValidationError.type_mismatch,
          ValidationError.with_values]
      | bool b => simp [validate_value, stripE, ValidationError.type_mismatch,
          ValidationError.with_values]
      | num n => simp [validate_value, stripE, ValidationError.type_mismatch,
          ValidationError.with_values]
      | str st => simp [validate_value, stripE, ValidationError.type_mismatch,
          ValidationError.with_values]
      | arr l => simp [validate_value, stripE, ValidationError.type_mismatch,
          ValidationError.with_values]
  | oneOf schemas =>
      have hcv : ∀ (l' : List SchemaType), (∀ e ∈ l', e ∈ schemas) →
          count_valid o o1 p1 l' v = count_valid o o2 p2 l' v := by
        intro l'
        induction l' with
        | nil => intro _; simp [count_valid]
        | cons t rest ih =>
            intro hsub
            have hmem : t ∈ schemas := hsub _ (List.mem_cons_self _ _)
            have hlt : sizeOf t < sizeOf (SchemaType.oneOf schemas) := by
              have h1 := List.sizeOf_lt_of_mem hmem
              simp
              omega
            have hrec := validate_value_strip_congr o o1 o2 hx hm p1 p2 t v
            have hie := strip_isEmpty hrec
            rw [count_valid, count_valid, hie,
              ih (fun e he => hsub e (List.mem_cons_of_mem _ he))]
      simp only [validate_value]
      rw [hcv schemas (fun _ h => h)]
      split_ifs <;> rfl
  | allOf schemas =>
      have hall : ∀ (l' : List SchemaType), (∀ e ∈ l', e ∈ schemas) → ∀ (idx acc : Nat),
          (validate_all_of o o1 p1 l' v idx acc).map stripE =
            (validate_all_of o o2 p2 l' v idx acc).map stripE := by
        intro l'
        induction l' with
        | nil => intro _ idx acc; simp [validate_all_of]
        | cons t rest ih =>
            intro hsub idx acc
            have hmem : t ∈ schemas := hsub _ (List.mem_cons_self _ _)
            have hlt : sizeOf t < sizeOf (SchemaType.allOf schemas) := by
              have h1 := List.sizeOf_lt_of_mem hmem
              simp
              omega
            have hrec := validate_value_strip_congr o o1 o2 hx hm p1 p2 t v
            have h1 : ((validate_value o o1 p1 t v).map
                  (rewritePath "allOf" (buildPath p1) idx)).map stripE =
                ((validate_value o o2 p2 t v).map
                  (rewritePath "allOf" (buildPath p2) idx)).map stripE := by
              rw [strip_rewritePath, strip_rewritePath, hrec]
            have h1len := strip_length h1
            rw [validate_all_of, validate_all_of, ← hsc]
            cases hc : shouldContinue o1 acc
            · simp
            · simp only [if_true]
              exact strip_append h1
                ((ih (fun e he => hsub e (List.mem_cons_of_mem _ he)) (idx + 1) _).trans
                  (by rw [h1len]))
      simp only [validate_value]
      exact hall schemas (fun _ h => h) 0 0
  | anyOf schemas =>
      have hany : ∀ (l' : List SchemaType), (∀ e ∈ l', e ∈ schemas) →
          (validate_any_of o o1 p1 l' v).map stripE =
            (validate_any_of o o2 p2 l' v).map stripE := by
        intro l'
        induction l' with
        | nil => intro _; simp [validate_any_of, stripE, ValidationError.new]
        | cons t rest ih =>
            intro hsub
            have hmem : t ∈ schemas := hsub _ (List.mem_cons_self _ _)
            have hlt : sizeOf t < sizeOf (SchemaType.anyOf schemas) := by
              have h1 := List.sizeOf_lt_of_mem hmem
              simp
              omega
            have hrec := validate_value_strip_congr o o1 o2 hx hm p1 p2 t v
            have hie := strip_isEmpty hrec
            rw [validate_any_of, validate_any_of, hie]
            cases hE : (validate_value o o2 p2 t v).isEmpty
            · simp only [hE, Bool.false_eq_true, if_false]
              exact ih (fun e he => hsub e (List.mem_cons_of_mem _ he))
            · simp [hE]
      simp only [validate_value]
      exact hany schemas (fun _ h => h)
termination_by sizeOf s
decreasing_by all_goals assumption

/-! ## Batch layer reductions -/
theorem compile_schema (s : SchemaType) : s.compile.schema = s := rfl

theorem chunksOf_eq_single (n : Nat) (l : List Json) (h0 : l ≠ []) (h : l.length ≤ n) :
    chunksOf n l = [l] := by
  cases l with
  | nil => exact absurd rfl h0
  | cons x xs =>
      rw [chunksOf]
      have hlen : xs.length ≤ n - 1 := by simp at h; omega
      rw [List.take_of_length_le hlen, List.drop_eq_nil_of_le hlen, chunksOf]

/-- For batches of at most 1000 values the optimizer leaves the schema alone
and both processing paths reduce to the same enumerated map, with each item
validated under its own index path. -/
theorem validate_many_le1000 (o : TextOracles) (clock : Nat → ℚ) (schema : SchemaType)
    (values : List Json) (h : values.length ≤ 1000) :
    validate_many o clock schema values =
      values.enum.map (fun iv => batch_item o clock schema iv.1 iv.2) := by
  simp only [validate_many, compile_schema]
  have hopt : SchemaOptimizer.optimize_for_batch schema values.length = schema := by
    rw [SchemaOptimizer.optimize_for_batch, if_neg (by omega)]
  rw [hopt]
  split
  · rw [validate_parallel]
    cases hv : values with
    | nil => simp [chunksOf]
    | cons x xs =>
        rw [chunksOf_eq_single 1000 (x :: xs) (by simp) (by rw [← hv]; exact h)]
        simp [validate_chunk]
  · rw [validate_sequential]


theorem batch_item_vs_validate (o : TextOracles) (clock : Nat → ℚ) (schema : SchemaType)
    (i : Nat) (v : Json) :
    (batch_item o clock schema i v).success = (validate o schema v).success ∧
    (batch_item o clock schema i v).data = (validate o schema v).data ∧
    (batch_item o clock schema i v).errors.map stripE =
      (validate o schema v).errors.map stripE := by
  have hstrip := validate_value_strip_congr o manyOptions defaultOptions rfl rfl
    [indexSegment i] [] schema v
  have hie := strip_isEmpty hstrip
  rw [batch_item, validate, compile_schema]
  cases hE : (validate_value o defaultOptions [] schema v).isEmpty
  · rw [hE] at hie
    simp only [hie, Bool.false_eq_true, if_false]
    exact ⟨rfl, rfl, hstrip⟩
  · rw [hE] at hie
    simp only [hie, if_true]
    exact ⟨rfl, rfl, by simp [ValidationResult.success_with_stats, ValidationResult.mkSuccess]⟩

/-! ## Shared concrete material for the claim theorems -/

/-- Oracle used for the concrete examples; none of them involve patterns or
formats, so every oracle gives the same results on them. -/
def trivialOracles : TextOracles := ⟨fun _ _ => some true, fun _ _ => true⟩

/-- Clock oracle used for the concrete examples. -/
def zeroClock : Nat → ℚ := fun _ => 0

/-- Unconstrained string schema (first branch of the spec `oneOf` example). -/
def strAny : SchemaType := .string none none none none

/-- Unconstrained number schema (second branch of the spec `oneOf` example). -/
def numAny : SchemaType := .number none none false none

/-- Integer-stored JSON number. -/
def jint (i : Int) : Json := .num (.int i)

/-- Array schema of the spec uniqueness example:
`{type:array, items:{type:number, integer:true, min:0}, minItems:1, maxItems:5,
uniqueItems:true}`. -/
def specArraySchema : SchemaType :=
  .array (.number (some 0) none true none) (some 1) (some 5) true

/-- C1 (amended): when some `anyOf` branch succeeds the result is empty; when
no branch succeeds, the branch errors are accumulated and annotated but then
discarded, and the returned list is exactly one `AnyOfNoMatch` error at the
combinator's own path. -/
theorem c1_anyOf_summary_only (o : TextOracles) (opts : ValidationOptions)
    (p : List String) (schemas : List SchemaType) (v : Json) :
    validate_value o opts p (.anyOf schemas) v =
      if schemas.any (fun s => (validate_value o opts p s v).isEmpty) then []
      else
        [ValidationError.new (buildPath p) "Value does not match any anyOf schemas"
          .anyOfNoMatch] := by
  simp only [validate_value]
  exact validate_any_of_eq o opts p schemas v

/-- C1 counterexample: validating `true` against `anyOf:[string, number]`
returns the single `AnyOfNoMatch` summary error, not the concatenation of the
two branches' (annotated) type-mismatch errors. -/
theorem c1_counterexample :
    (validate trivialOracles (.anyOf [strAny, numAny]) (.bool true)).errors =
      [ValidationError.new "" "Value does not match any anyOf schemas" .anyOfNoMatch] ∧
    ((validate_value trivialOracles defaultOptions [] strAny (.bool true)) ++
        (validate_value trivialOracles defaultOptions [] numAny (.bool true))).map
        (fun e => e.code) = [.invalidType, .invalidType] := by
  constructor
  · simp [validate, validate_value, validate_any_of, validate_string, validate_number,
      SchemaType.compile, strAny, numAny, trivialOracles, Json.as_f64,
      ValidationResult.mkSuccess, ValidationResult.failure, buildPath,
      ValidationError.type_mismatch, ValidationError.with_values]
  · simp [validate_value, validate_string, validate_number, strAny, numAny,
      trivialOracles, Json.as_f64, ValidationError.type_mismatch,
      ValidationError.with_values]


/-- C2: `oneOf` validation counts the branches whose error list is empty;
exactly one success gives an empty result, zero successes give exactly one
`OneOfNoMatch` error at the combinator's own path, several successes give
exactly one `OneOfMultipleMatches` error naming the count, and branch errors
never appear in the result.  In particular `oneOf:[string, number]` accepts
`"test"` and `42` and rejects `true` with `OneOfNoMatch`. -/
theorem c2_oneOf_counting :
    (∀ (o : TextOracles) (opts : ValidationOptions) (p : List String)
        (schemas : List SchemaType) (v : Json),
      validate_value o opts p (.oneOf schemas) v =
        (let k := schemas.countP (fun s => (validate_value o opts p s v).isEmpty)
         if k = 0 then
           [ValidationError.new (buildPath p) "Value does not match any oneOf schemas"
             .oneOfNoMatch]
         else if k = 1 then []
         else
           [ValidationError.new (buildPath p)
             ("Value matches " ++ toString k ++ " oneOf schemas, expected exactly 1")
             .oneOfMultipleMatches])) ∧
    (validate trivialOracles (.oneOf [strAny, numAny]) (.str "test")).success = true ∧
    (validate trivialOracles (.oneOf [strAny, numAny]) (.num (.int 42))).success = true ∧
    (validate trivialOracles (.oneOf [strAny, numAny]) (.bool true)).success = false ∧
    (validate trivialOracles (.oneOf [strAny, numAny]) (.bool true)).errors.map
      (fun e => e.code) = [.oneOfNoMatch] := by
  refine ⟨?_, ?_, ?_, ?_, ?_⟩
  · intro o opts p schemas v
    simp only [validate_value, count_valid_eq_countP]
    by_cases h0 : schemas.countP (fun s => (validate_value o opts p s v).isEmpty) = 0
    · simp [h0]
    · by_cases h1 : schemas.countP (fun s => (validate_value o opts p s v).isEmpty) = 1
      · simp [h0, h1]
      · simp [h0, h1]
  · simp [validate, validate_value, count_valid, validate_string, validate_number,
      SchemaType.compile, strAny, numAny, trivialOracles, Json.as_f64,
      ValidationResult.mkSuccess, ValidationResult.failure]
  · simp [validate, validate_value, count_valid, validate_string, validate_number,
      SchemaType.compile, strAny, numAny, trivialOracles, Json.as_f64, JNumber.as_f64,
      is_integer, ValidationResult.mkSuccess, ValidationResult.failure,
      ValidationError.type_mismatch, ValidationError.with_values]
  · simp [validate, validate_value, count_valid, validate_string, validate_number,
      SchemaType.compile, strAny, numAny, trivialOracles, Json.as_f64,
      ValidationResult.mkSuccess, ValidationResult.failure,
      ValidationError.type_mismatch, ValidationError.with_values]
  · simp [validate, validate_value, count_valid, validate_string, validate_number,
      SchemaType.compile, strAny, numAny, trivialOracles, Json.as_f64, buildPath,
      ValidationResult.mkSuccess, ValidationResult.failure,
      ValidationError.type_mismatch, ValidationError.with_values, ValidationError.new]


/-- C3 (amended): for batches of at most 1000 values (so that no property
reordering takes place), `validate_many` returns one result per input in the
original order, and the i-th result agrees with `validate` on the i-th input
in success flag and data payload, while its error list agrees in codes,
messages and expected/received snapshots; the error paths differ by the
item's (within-chunk) index root segment, and performance-stat fields
differ. -/
theorem c3_batch_order_law (o : TextOracles) (clock : Nat → ℚ) (schema : SchemaType)
    (values : List Json) (i : Nat) (hsize : values.length ≤ 1000)
    (hi : i < values.length) :
    (validate_many o clock schema values).length = values.length ∧
    ((validate_many o clock schema values).getD i (ValidationResult.failure [])).success =
      (validate o schema (values.getD i .null)).success ∧
    ((validate_many o clock schema values).getD i (ValidationResult.failure [])).data =
      (validate o schema (values.getD i .null)).data ∧
    (((validate_many o clock schema values).getD i
        (ValidationResult.failure [])).errors).map stripE =
      ((validate o schema (values.getD i .null)).errors).map stripE := by
  rw [validate_many_le1000 o clock schema values hsize]
  have hget : ((values.enum.map (fun iv => batch_item o clock schema iv.1 iv.2)).getD i
      (ValidationResult.failure [])) = batch_item o clock schema i (values.getD i .null) := by
    rw [List.getD_eq_getElem?_getD, List.getElem?_map, List.getElem?_enum,
      List.getElem?_eq_getElem hi]
    simp [List.getD_eq_getElem?_getD, List.getElem?_eq_getElem hi]
  rw [hget]
  have h := batch_item_vs_validate o clock schema i (values.getD i .null)
  exact ⟨by simp, h.1, h.2.1, h.2.2⟩

/-- C3 counterexample: with the spec's string schema and the one-element batch
`["x"]`, the batch error carries path `[0]` while the single-value error
carries the empty root path, so the error lists are not equal. -/
theorem c3_counterexample :
    ((validate_many trivialOracles zeroClock (.string (some 2) (some 10) none none)
        [Json.str "x"]).map (fun r => r.errors.map (fun e => e.path))) = [["[0]"]] ∧
    ((validate trivialOracles (.string (some 2) (some 10) none none)
        (Json.str "x")).errors.map (fun e => e.path)) = [""] ∧
    (["[0]"] : List String) ≠ [""] := by
  refine ⟨?_, ?_, by decide⟩
  · have hx : "x".length = 1 := rfl
    simp [hx, validate_many, validate_sequential, validate_parallel, batch_item,
      SchemaOptimizer.optimize_for_batch, SchemaOptimizer.can_parallelize,
      SchemaOptimizer.is_parallelizable_schema, SchemaType.compile, SchemaType.is_simple,
      validate_value, validate_string, trivialOracles, zeroClock, buildPath, indexSegment,
      ValidationResult.success_with_stats, ValidationResult.failure_with_stats,
      ValidationError.string_length, ValidationError.with_values, List.enum, finishStats]
    rfl
  · have hx : "x".length = 1 := rfl
    simp [hx, validate, validate_value, validate_string, SchemaType.compile,
      trivialOracles, buildPath, ValidationResult.mkSuccess, ValidationResult.failure,
      ValidationError.string_length, ValidationError.with_values]

/-- C3 witness: the amended batch law applied to the concrete batch `["x"]`. -/
theorem c3_batch_order_law_witness :
    ([Json.str "x"] : List Json).length ≤ 1000 ∧ 0 < ([Json.str "x"] : List Json).length ∧
    ((validate_many trivialOracles zeroClock (.string (some 2) (some 10) none none)
        [Json.str "x"]).length = ([Json.str "x"] : List Json).length ∧
      ((validate_many trivialOracles zeroClock (.string (some 2) (some 10) none none)
          [Json.str "x"]).getD 0 (ValidationResult.failure [])).success =
        (validate trivialOracles (.string (some 2) (some 10) none none)
          (([Json.str "x"] : List Json).getD 0 .null)).success ∧
      ((validate_many trivialOracles zeroClock (.string (some 2) (some 10) none none)
          [Json.str "x"]).getD 0 (ValidationResult.failure [])).data =
        (validate trivialOracles (.string (some 2) (some 10) none none)
          (([Json.str "x"] : List Json).getD 0 .null)).data ∧
      (((validate_many trivialOracles zeroClock (.string (some 2) (some 10) none none)
          [Json.str "x"]).getD 0 (ValidationResult.failure [])).errors).map stripE =
        ((validate trivialOracles (.string (some 2) (some 10) none none)
          (([Json.str "x"] : List Json).getD 0 .null)).errors).map stripE) :=
  ⟨by decide, by decide,
    c3_batch_order_law trivialOracles zeroClock (.string (some 2) (some 10) none none)
      [Json.str "x"] 0 (by decide) (by decide)⟩


/-- Invariant of the result model: the success flag, emptiness of the error
list and presence of the data payload agree. -/
def resultInvariant (r : ValidationResult) : Bool :=
  (r.success == r.errors.isEmpty) && (r.success == r.data.isSome)

/-- C4 (amended): the success constructors always satisfy the invariant
`success ⇔ errors empty ⇔ data present`; the failure constructors satisfy it
exactly when the supplied error list is nonempty; `merge` preserves it on any
nonempty input list of results that satisfy it (while `merge []` violates it,
being a success without data). -/
theorem c4_result_invariant :
    (∀ d : Json, resultInvariant (ValidationResult.mkSuccess d) = true) ∧
    (∀ (d : Json) (st : PerformanceStats),
      resultInvariant (ValidationResult.success_with_stats d st) = true) ∧
    (∀ errs : List ValidationError,
      resultInvariant (ValidationResult.failure errs) = !errs.isEmpty) ∧
    (∀ (errs : List ValidationError) (st : PerformanceStats),
      resultInvariant (ValidationResult.failure_with_stats errs st) = !errs.isEmpty) ∧
    (∀ rs : List ValidationResult, rs ≠ [] → (∀ r ∈ rs, resultInvariant r = true) →
      resultInvariant (ValidationResult.merge rs) = true) := by
  refine ⟨fun d => rfl, fun d st => rfl, ?_, ?_, ?_⟩
  · intro errs
    cases errs <;> rfl
  · intro errs st
    cases errs <;> rfl
  · intro rs hne hall
    have hs := ValidationResult.merge_success rs
    have he := ValidationResult.merge_errors rs
    have hd := ValidationResult.merge_data rs
    by_cases hsucc : rs.all (fun r => r.success)
    · cases rs with
      | nil => exact absurd rfl hne
      | cons r rest =>
          have hr : r.success = true := by
            have := List.all_eq_true.mp hsucc r (List.mem_cons_self _ _)
            simpa using this
          have hinv := hall r (List.mem_cons_self _ _)
          have hrd : r.data.isSome = true := by
            simp only [resultInvariant, Bool.and_eq_true, beq_iff_eq] at hinv
            rw [← hinv.2, hr]
          obtain ⟨d, hdval⟩ := Option.isSome_iff_exists.mp hrd
          have hfsd : ValidationResult.firstSuccessData (r :: rest) = some d := by
            simp [ValidationResult.firstSuccessData, List.filterMap_cons, hr, hdval]
          simp [resultInvariant, hs, he, hd, hsucc, hfsd]
    · rcases List.all_eq_false.mp (Bool.eq_false_iff.mpr hsucc) with ⟨r, hr, hrf⟩
      have hrfalse : r.success = false := by simpa using hrf
      have hinv := hall r hr
      have hre : r.errors.isEmpty = false := by
        simp only [resultInvariant, Bool.and_eq_true, beq_iff_eq] at hinv
        rw [← hinv.1, hrfalse]
      have hrne : r.errors ≠ [] := by
        intro hnil
        rw [hnil] at hre
        simp at hre
      have hflat : ((rs.filter (fun t => !t.success)).map (fun t => t.errors)).flatten ≠ [] := by
        intro hf
        exact hrne ((List.flatten_eq_nil_iff.mp hf) r.errors
          (List.mem_map_of_mem _ (List.mem_filter.mpr ⟨hr, by simp [hrfalse]⟩)))
      have heB : (ValidationResult.merge rs).errors.isEmpty = false := by
        rw [he, if_neg hsucc]
        cases hfv : ((rs.filter (fun t => !t.success)).map (fun t => t.errors)).flatten
        · exact absurd hfv hflat
        · rfl
      simp [resultInvariant, hs, hd, hsucc, heB]


/-- C4 counterexample: `merge` of the empty list yields a success with no
data, so the three conditions of the claimed invariant are not equivalent for
every merge result. -/
theorem c4_counterexample :
    (ValidationResult.merge []).success = true ∧
    (ValidationResult.merge []).errors = [] ∧
    (ValidationResult.merge []).data = none := by
  refine ⟨rfl, rfl, rfl⟩

/-- C4 witness: the amended invariant applied to concrete results. -/
theorem c4_result_invariant_witness :
    resultInvariant (ValidationResult.mkSuccess .null) = true ∧
    resultInvariant (ValidationResult.failure
      [ValidationError.new "" "boom" .internalError]) = true ∧
    ([ValidationResult.mkSuccess .null] : List ValidationResult) ≠ [] ∧
    resultInvariant (ValidationResult.merge [ValidationResult.mkSuccess .null]) = true :=
  ⟨c4_result_invariant.1 .null,
    by rw [c4_result_invariant.2.2.1]; rfl,
    by simp,
    c4_result_invariant.2.2.2.2 [ValidationResult.mkSuccess .null] (by simp)
      (by intro r hre; rw [List.mem_singleton.mp hre]; rfl)⟩

/-- C5 (amended): `merge` succeeds exactly when every input succeeded; on
success its error list is empty and its payload is the first present payload
among the successful inputs (which is the first successful input's payload
whenever the inputs satisfy the result invariant); on any failure all
payloads are discarded and the error list is the concatenation of every
failing input's errors in input order.  The spec's two concrete merge laws
hold as stated. -/
theorem c5_merge_law :
    (∀ rs : List ValidationResult,
      (ValidationResult.merge rs).success = rs.all (fun r => r.success) ∧
      (ValidationResult.merge rs).data =
        (if rs.all (fun r => r.success) then ValidationResult.firstSuccessData rs
         else none) ∧
      (ValidationResult.merge rs).errors =
        (if rs.all (fun r => r.success) then []
         else ((rs.filter (fun r => !r.success)).map (fun r => r.errors)).flatten)) ∧
    (∀ (a : Json) (e1 : ValidationError),
      (ValidationResult.merge [ValidationResult.mkSuccess a,
        ValidationResult.failure [e1]]).success = false ∧
      (ValidationResult.merge [ValidationResult.mkSuccess a,
        ValidationResult.failure [e1]]).errors = [e1]) ∧
    (∀ a b : Json,
      (ValidationResult.merge [ValidationResult.mkSuccess a,
        ValidationResult.mkSuccess b]).data = some a) := by
  refine ⟨?_, ?_, ?_⟩
  · intro rs
    exact ⟨ValidationResult.merge_success rs, ValidationResult.merge_data rs,
      ValidationResult.merge_errors rs⟩
  · intro a e1
    constructor <;>
      simp [ValidationResult.merge, ValidationResult.mergeStep,
        ValidationResult.mkSuccess, ValidationResult.failure]
  · intro a b
    simp [ValidationResult.merge, ValidationResult.mergeStep, ValidationResult.mkSuccess]

/-- C5 counterexample: `merge []` is itself a successful result with no
payload; merging it with a success shows that the merged payload is not the
first successful input's payload (which is absent) but the first present
one. -/
theorem c5_counterexample :
    (ValidationResult.merge []).success = true ∧
    (ValidationResult.merge []).data = none ∧
    (ValidationResult.merge [ValidationResult.merge [],
      ValidationResult.mkSuccess (.str "b")]).success = true ∧
    (ValidationResult.merge [ValidationResult.merge [],
      ValidationResult.mkSuccess (.str "b")]).data = some (.str "b") := by
  refine ⟨rfl, rfl, rfl, ?_⟩
  simp [ValidationResult.merge, ValidationResult.mergeStep, ValidationResult.mkSuccess]


/-- Whether a schema is an object variant (root shape tested by `compile`). -/
def SchemaType.isObjectVariant : SchemaType → Bool
  | .object .. => true
  | _ => false

theorem patterns_props_eq_any (props : List (String × SchemaType)) :
    patterns_props props = props.any (fun kv => kv.2.has_patterns) := by
  induction props with
  | nil => rfl
  | cons kv rest ih => rw [patterns_props, ih, List.any_cons]

/-- C6 (amended): the compiled `has_patterns` flag is computed only for object
roots: for an object root it holds exactly when some property schema contains
a reachable string pattern (through arrays, objects, or combinators), and for
every non-object root it is `false`, even when the root itself declares a
pattern. -/
theorem c6_has_patterns_object_root_only :
    (∀ (props : List (String × SchemaType)) (req : Option (List String)) (ap : Bool),
      ((SchemaType.object props req ap).compile).has_patterns =
        props.any (fun kv => kv.2.has_patterns)) ∧
    (∀ s : SchemaType, s.isObjectVariant = false → (s.compile).has_patterns = false) := by
  constructor
  · intro props req ap
    simp [SchemaType.compile, patterns_props_eq_any]
  · intro s hs
    cases s <;> first
      | rfl
      | exact absurd hs (by rw [SchemaType.isObjectVariant]; simp)

/-- C6 counterexample: a root string schema with a pattern is compiled with
`has_patterns = false` although a string schema with a pattern (the root
itself) is reachable from the root. -/
theorem c6_counterexample :
    ((SchemaType.string none none (some "[a-z]+") none).compile).has_patterns = false ∧
    (SchemaType.string none none (some "[a-z]+") none).has_patterns = true :=
  ⟨rfl, rfl⟩

/-- C6 witness: the amended statement applied to concrete schemas. -/
theorem c6_has_patterns_witness :
    ((SchemaType.object [("a", SchemaType.string none none (some "[a-z]+") none)]
        none true).compile).has_patterns = true ∧
    (SchemaType.number none none false none).isObjectVariant = false ∧
    ((SchemaType.number none none false none).compile).has_patterns = false :=
  ⟨by rw [c6_has_patterns_object_root_only.1]; rfl, rfl,
    c6_has_patterns_object_root_only.2 _ rfl⟩


/-- C7: on an array value with `uniqueItems`, the result is the length errors
followed by at most one `ArrayNotUnique` error — emitted exactly when two
items share a partition key, with the scan stopping at the first duplicate —
followed by the per-item errors; length errors already emitted remain.  The
spec's three concrete examples behave as stated. -/
theorem c7_unique_scan :
    (∀ (o : TextOracles) (opts : ValidationOptions) (p : List String)
        (items : SchemaType) (mi ma : Option Nat) (l : List Json),
      validate_value o opts p (.array items mi ma true) (.arr l) =
        array_length_errors p l.length mi ma ++
          (if (l.map jkey).Nodup then []
           else [ValidationError.new (buildPath p) "Array items must be unique"
             .arrayNotUnique]) ++
          validate_items o opts p items l 0
            (array_length_errors p l.length mi ma ++
              (if (l.map jkey).Nodup then []
               else [ValidationError.new (buildPath p) "Array items must be unique"
                 .arrayNotUnique])).length) ∧
    (validate trivialOracles specArraySchema (.arr [jint 1, jint 2, jint 2])).success
        = false ∧
    (validate trivialOracles specArraySchema
        (.arr [jint 1, jint 2, jint 2])).errors.map (fun e => e.code)
      = [.arrayNotUnique] ∧
    (validate trivialOracles specArraySchema
        (.arr [jint 1, jint 2, jint 3, jint 4, jint 5, jint 6])).success = false ∧
    (validate trivialOracles specArraySchema
        (.arr [jint 1, jint 2, jint 3, jint 4, jint 5, jint 6])).errors.map
        (fun e => e.code) = [.arrayTooLong] ∧
    (validate trivialOracles specArraySchema (.arr [])).success = false ∧
    (validate trivialOracles specArraySchema (.arr [])).errors.map (fun e => e.code)
      = [.arrayTooShort] := by
  refine ⟨?_, ?_, ?_, ?_, ?_, ?_, ?_⟩
  · intro o opts p items mi ma l
    simp only [validate_value, if_true, unique_errors_eq]
  all_goals
    simp [validate, validate_value, validate_items, validate_number, specArraySchema,
      jint, SchemaType.compile, trivialOracles, Json.as_f64, JNumber.as_f64,
      JNumber.as_i64, ValidationResult.mkSuccess, ValidationResult.failure,
      array_length_errors, unique_errors, uniqueScan, UniqueChecker.insert,
      UniqueChecker.new, ValidationError.new, shouldContinue, defaultOptions,
      is_integer, buildPath, indexSegment]

/-- C8: validating a single value always terminates with a (possibly empty)
list of validation errors, for every value, schema and context — the engine
is a total function into error lists and has no abort path. -/
theorem c8_validate_value_total (o : TextOracles) (opts : ValidationOptions)
    (p : List String) (s : SchemaType) (v : Json) :
    ∃ errs : List ValidationError, validate_value o opts p s v = errs :=
  ⟨_, rfl⟩

/-- C9: the uniqueness checker partitions items by runtime kind, so an
integer-stored number and a float-stored number have distinct partition keys,
an insertion reports a duplicate only within the same partition, and the
array `[i, q]` (integer-stored `i`, float-stored `q`) always passes
`uniqueItems` — even when `i` and `q` denote the same number. -/
theorem c9_unique_partition :
    (∀ (i : Int) (q : ℚ), jkey (Json.num (.int i)) ≠ jkey (Json.num (.float q))) ∧
    (∀ (c : UniqueChecker) (v : Json), ((c.insert v).1 = true) ↔ jkey v ∉ c.keys) ∧
    (∀ (i : Int) (q : ℚ),
      uniqueScan UniqueChecker.new [Json.num (.int i), Json.num (.float q)] = false) ∧
    (∀ (i : Int) (q : ℚ),
      (validate trivialOracles (.array (.number none none false none) none none true)
        (.arr [Json.num (.int i), Json.num (.float q)])).success = true) := by
  refine ⟨?_, ?_, ?_, ?_⟩
  · intro i q
    simp [jkey]
  · exact UniqueChecker.insert_fst
  · intro i q
    simp [uniqueScan, UniqueChecker.insert, UniqueChecker.new, JNumber.as_i64,
      JNumber.as_f64]
  · intro i q
    simp [validate, validate_value, validate_items, validate_number,
      SchemaType.compile, trivialOracles, Json.as_f64, JNumber.as_f64, JNumber.as_i64,
      ValidationResult.mkSuccess, array_length_errors, unique_errors, uniqueScan,
      UniqueChecker.insert, UniqueChecker.new, shouldContinue, defaultOptions]

/-- C10: a `multiple_of` constraint of `0.0` disables the multiple-of check
entirely: the result is the same as with no `multiple_of` constraint, and no
`NumberNotMultipleOf` error is ever emitted (the zero test short-circuits the
guard, so the remainder is never taken with a zero divisor). -/
theorem c10_multiple_of_zero_skipped :
    (∀ (o : TextOracles) (opts : ValidationOptions) (p : List String) (mn mx : Option ℚ)
        (intg : Bool) (v : Json),
      validate_value o opts p (.number mn mx intg (some 0)) v =
        validate_value o opts p (.number mn mx intg none) v) ∧
    (∀ (o : TextOracles) (opts : ValidationOptions) (p : List String) (mn mx : Option ℚ)
        (intg : Bool) (v : Json),
      (validate_value o opts p (.number mn mx intg (some 0)) v).all
        (fun e => e.code != ErrorCode.numberNotMultipleOf) = true) := by
  constructor
  · intro o opts p mn mx intg v
    simp [validate_value, validate_number]
  · intro o opts p mn mx intg v
    simp only [validate_value]
    have hnr : ∀ (pa : String) (a : ℚ) (mnx mxx : Option ℚ),
        ((ValidationError.number_range pa a mnx mxx).code
          != ErrorCode.numberNotMultipleOf) = true := by
      intro pa a mnx mxx
      rcases mnx with _ | m2
      · rfl
      · by_cases hlt : a < m2 <;> simp [ValidationError.number_range,
          ValidationError.with_values, hlt]
    rcases hv : v.as_f64 with _ | n
    · simp [validate_number, hv, ValidationError.type_mismatch,
        ValidationError.with_values]
    · rcases mn with _ | m <;> rcases mx with _ | M <;>
        simp only [validate_number, hv] <;> split_ifs <;>
          simp_all [hnr, ValidationError.new, List.all_append]

end FastSchema